import Mathlib

/-!
Shallow embedding of the `cj_bitmask_vec` crate
(`src/cj_bitmask_item.rs`, `src/cj_bitmask_vec.rs`).

Modelling choices:
* The bitmask type parameter `B` (any of `u8`..`u128` via the `Bitflag` /
  `CjMatchesMask` traits of the external `cj_common` crate) is modelled as
  `Nat`.  The only operations the code uses on `B` are bitwise AND,
  equality and `B::default()` (zero); none of them overflow so the width
  is irrelevant, and `Nat.land` agrees with the fixed-width AND.
* `BitmaskVec` stores a `List` of `BitmaskItem`s, mirroring the single
  backing `Vec<BitmaskItem<B, T>>` field named `inner`.
* The standard-library primitives `Vec::push`, `Vec::pop`, `Vec::append`,
  `Vec::extend` and the slice iterators are modelled by their documented
  list semantics; each iterator/cursor is the list of not-yet-visited
  elements, and a stateful call returns the produced value paired with
  the advanced cursor.
-/

universe u

variable {T : Type u}

/-- Struct `BitmaskItem<B, T>` (`cj_bitmask_item.rs`): a bitmask paired
with an item; masks are modelled as `Nat`. -/
structure BitmaskItem (T : Type u) where
  bitmask : Nat
  item : T
deriving Repr, DecidableEq

/-- Constructor `BitmaskItem::new` (`cj_bitmask_item.rs`). -/
def BitmaskItem.new (bitmask : Nat) (item : T) : BitmaskItem T :=
  { bitmask := bitmask, item := item }

/-- Method `BitmaskItem::matches_mask` (`cj_bitmask_item.rs` line 73).  It
delegates to the `CjMatchesMask` impl of the external `cj_common` crate
for the unsigned integer types; the repository documents that predicate
as `(bitmask & mask) == mask` (doc comment at lines 54-55), which is the
semantics embedded here. -/
def BitmaskItem.matches_mask (self : BitmaskItem T) (mask : Nat) : Bool :=
  self.bitmask &&& mask == mask

/-- Method `BitmaskItem::set_mask` (`cj_bitmask_item.rs` line 81). -/
def BitmaskItem.set_mask (self : BitmaskItem T) (bitmask : Nat) : BitmaskItem T :=
  { self with bitmask := bitmask }

/-- Struct `BitmaskVec<B, T>` (`cj_bitmask_vec.rs` line 34): a single
backing vector of `BitmaskItem`s. -/
structure BitmaskVec (T : Type u) where
  inner : List (BitmaskItem T)
deriving Repr, DecidableEq

/-- Rust `Vec::pop`: removes the last element and returns it, or returns
`none` on an empty vector.  The result is the returned value paired with
the vector after the call. -/
def vecPop {α : Type u} (l : List α) : Option α × List α :=
  match l.getLast? with
  | none => (none, l)
  | some x => (some x, l.dropLast)

/-- Constructor `BitmaskVec::new` (`cj_bitmask_vec.rs` line 57). -/
def BitmaskVec.new : BitmaskVec T :=
  { inner := [] }

/-- Method `BitmaskVec::len` (`cj_bitmask_vec.rs` line 281): length of
`inner`. -/
def BitmaskVec.len (self : BitmaskVec T) : Nat :=
  self.inner.length

/-- Method `BitmaskVec::is_empty` (`cj_bitmask_vec.rs` line 167). -/
def BitmaskVec.is_empty (self : BitmaskVec T) : Bool :=
  self.inner.isEmpty

/-- Method `BitmaskVec::push` (`cj_bitmask_vec.rs` line 306):
`self.inner.push(BitmaskItem::new(B::default(), value))`; `B::default()`
is the all-zero mask for every unsigned integer type. -/
def BitmaskVec.push (self : BitmaskVec T) (value : T) : BitmaskVec T :=
  { inner := self.inner ++ [BitmaskItem.new 0 value] }

/-- Method `BitmaskVec::push_with_mask` (`cj_bitmask_vec.rs` line 322):
`self.inner.push(BitmaskItem::new(bitmask, value))`. -/
def BitmaskVec.push_with_mask (self : BitmaskVec T) (bitmask : Nat) (value : T) :
    BitmaskVec T :=
  { inner := self.inner ++ [BitmaskItem.new bitmask value] }

/-- Method `BitmaskVec::pop` (`cj_bitmask_vec.rs` line 342):
`if let Some(item) = self.inner.pop() { Some(item.item) } else { None }`. -/
def BitmaskVec.pop (self : BitmaskVec T) : Option T × BitmaskVec T :=
  match vecPop self.inner with
  | (some item, rest) => (some item.item, { inner := rest })
  | (none, rest) => (none, { inner := rest })

/-- Method `BitmaskVec::pop_with_mask` (`cj_bitmask_vec.rs` line 365):
`self.inner.pop()`. -/
def BitmaskVec.pop_with_mask (self : BitmaskVec T) :
    Option (BitmaskItem T) × BitmaskVec T :=
  match vecPop self.inner with
  | (o, rest) => (o, { inner := rest })

/-- Method `BitmaskVec::append` (`cj_bitmask_vec.rs` line 95):
`self.inner.append(&mut other.inner)` — `Vec::append` moves all of
`other`'s elements onto the end of `self`, leaving `other` empty.  The
result is the updated `(self, other)` pair. -/
def BitmaskVec.append (self other : BitmaskVec T) : BitmaskVec T × BitmaskVec T :=
  ({ inner := self.inner ++ other.inner }, { inner := [] })

/-- Method `BitmaskVec::as_slice` (`cj_bitmask_vec.rs` line 101): the
entire backing vector as a slice. -/
def BitmaskVec.as_slice (self : BitmaskVec T) : List (BitmaskItem T) :=
  self.inner

/-- Operator `Index<usize>` (`cj_bitmask_vec.rs` line 538):
`&self.inner[index].item`; indexing out of bounds panics, so the embedding
takes a bounds proof. -/
def BitmaskVec.index (self : BitmaskVec T) (i : Nat) (h : i < self.len) : T :=
  (self.inner.get ⟨i, h⟩).item

/-- Operator `AddAssign<BitmaskVec<B, T>>` (`cj_bitmask_vec.rs` line 647):
`self.inner.extend(rhs.inner)`; `rhs` is consumed by the move, and
`Vec::extend` appends its elements in order. -/
def BitmaskVec.add_assign (self rhs : BitmaskVec T) : BitmaskVec T :=
  { inner := self.inner ++ rhs.inner }

/-- Operator `AddAssign<(B, T)>` (`cj_bitmask_vec.rs` line 590):
`self.push_with_mask(rhs.0, rhs.1)`. -/
def BitmaskVec.add_assign_pair (self : BitmaskVec T) (rhs : Nat × T) : BitmaskVec T :=
  self.push_with_mask rhs.1 rhs.2

/-- Operator `AddAssign<T>` (`cj_bitmask_vec.rs` line 616): `self.push(rhs)`. -/
def BitmaskVec.add_assign_item (self : BitmaskVec T) (rhs : T) : BitmaskVec T :=
  self.push rhs

/-- Struct `BitmaskVecIter` (`cj_bitmask_vec.rs` line 654): wraps a slice
iterator over the backing vector; modelled as the list of remaining
elements. -/
structure BitmaskVecIter (T : Type u) where
  inner : List (BitmaskItem T)
deriving Repr, DecidableEq

/-- Method `BitmaskVec::iter` (`cj_bitmask_vec.rs` line 389):
`BitmaskVecIter::new(self.inner.iter())`. -/
def BitmaskVec.iter (self : BitmaskVec T) : BitmaskVecIter T :=
  { inner := self.inner }

/-- Method `BitmaskVecIter::next` (`cj_bitmask_vec.rs` line 682):
`self.inner.next().map(|item| &item.item)`. -/
def BitmaskVecIter.next (self : BitmaskVecIter T) : Option T × BitmaskVecIter T :=
  match self.inner with
  | [] => (none, { inner := [] })
  | x :: xs => (some x.item, { inner := xs })

/-- Struct `BitmaskVecIterWithMask` (`cj_bitmask_vec.rs` line 689). -/
structure BitmaskVecIterWithMask (T : Type u) where
  inner : List (BitmaskItem T)
deriving Repr, DecidableEq

/-- Method `BitmaskVec::iter_with_mask` (`cj_bitmask_vec.rs` line 415). -/
def BitmaskVec.iter_with_mask (self : BitmaskVec T) : BitmaskVecIterWithMask T :=
  { inner := self.inner }

/-- Method `BitmaskVecIterWithMask::next` (`cj_bitmask_vec.rs` line 740):
`self.inner.next()`. -/
def BitmaskVecIterWithMask.next (self : BitmaskVecIterWithMask T) :
    Option (BitmaskItem T) × BitmaskVecIterWithMask T :=
  match self.inner with
  | [] => (none, { inner := [] })
  | x :: xs => (some x, { inner := xs })

/-- Rust `Iterator::find` on a slice iterator: advances the iterator,
consuming every inspected element (the match included), until the
predicate holds; returns the found element and the remaining elements. -/
def iterFind (p : BitmaskItem T → Bool) :
    List (BitmaskItem T) → Option (BitmaskItem T) × List (BitmaskItem T)
  | [] => (none, [])
  | x :: xs => if p x then (some x, xs) else iterFind p xs

/-- Method `BitmaskVecIterWithMask::filter_mask` (`cj_bitmask_vec.rs`
line 728): `self.inner.by_ref().find(|&item| item.matches_mask(mask))`. -/
def BitmaskVecIterWithMask.filter_mask (self : BitmaskVecIterWithMask T) (mask : Nat) :
    Option (BitmaskItem T) × BitmaskVecIterWithMask T :=
  match iterFind (fun item => item.matches_mask mask) self.inner with
  | (o, rest) => (o, { inner := rest })

/-- Struct `BitmaskVecIterMut` (`cj_bitmask_vec.rs` line 747): the mutable
payload cursor; traversal order is identical to `BitmaskVecIter`. -/
structure BitmaskVecIterMut (T : Type u) where
  inner : List (BitmaskItem T)
deriving Repr, DecidableEq

/-- Method `BitmaskVec::iter_mut` (`cj_bitmask_vec.rs` line 449). -/
def BitmaskVec.iter_mut (self : BitmaskVec T) : BitmaskVecIterMut T :=
  { inner := self.inner }

/-- Method `BitmaskVecIterMut::next` (`cj_bitmask_vec.rs` line 775):
`self.inner.next().map(|item| &mut item.item)`. -/
def BitmaskVecIterMut.next (self : BitmaskVecIterMut T) :
    Option T × BitmaskVecIterMut T :=
  match self.inner with
  | [] => (none, { inner := [] })
  | x :: xs => (some x.item, { inner := xs })

/-- Struct `BitmaskVecIterWithMaskMut` (`cj_bitmask_vec.rs` line 782): the
mutable payload+mask cursor. -/
structure BitmaskVecIterWithMaskMut (T : Type u) where
  inner : List (BitmaskItem T)
deriving Repr, DecidableEq

/-- Method `BitmaskVec::iter_with_mask_mut` (`cj_bitmask_vec.rs` line 491). -/
def BitmaskVec.iter_with_mask_mut (self : BitmaskVec T) : BitmaskVecIterWithMaskMut T :=
  { inner := self.inner }

/-- Method `BitmaskVecIterWithMaskMut::next` (`cj_bitmask_vec.rs`
line 835): `self.inner.next()`. -/
def BitmaskVecIterWithMaskMut.next (self : BitmaskVecIterWithMaskMut T) :
    Option (BitmaskItem T) × BitmaskVecIterWithMaskMut T :=
  match self.inner with
  | [] => (none, { inner := [] })
  | x :: xs => (some x, { inner := xs })

/-- Method `BitmaskVecIterWithMaskMut::filter_mask` (`cj_bitmask_vec.rs`
line 823): `self.inner.by_ref().find(|item| item.matches_mask(mask))`. -/
def BitmaskVecIterWithMaskMut.filter_mask (self : BitmaskVecIterWithMaskMut T)
    (mask : Nat) : Option (BitmaskItem T) × BitmaskVecIterWithMaskMut T :=
  match iterFind (fun item => item.matches_mask mask) self.inner with
  | (o, rest) => (o, { inner := rest })

/-- Observer: drain a payload cursor by repeated `next` calls, collecting
the yielded payloads in order. -/
def BitmaskVecIter.collect : BitmaskVecIter T → List T
  | { inner := [] } => []
  | { inner := x :: xs } => x.item :: BitmaskVecIter.collect { inner := xs }

/-- Concrete scenario A of the spec (§8): four elements pushed with masks
`0b00000000, 0b00000010, 0b00000011, 0b00000100` and payloads
`100, 101, 102, 103`. -/
def scenarioA : BitmaskVec Nat :=
  ((((BitmaskVec.new).push_with_mask 0b00000000 100).push_with_mask 0b00000010
      101).push_with_mask 0b00000011 102).push_with_mask 0b00000100 103

/-- The sequence of payloads `collect` produces is the item projection of
the remaining elements. -/
theorem BitmaskVecIter.collect_eq_map (l : List (BitmaskItem T)) :
    BitmaskVecIter.collect { inner := l } = l.map (fun e => e.item) := by
  induction l with
  | nil => simp [BitmaskVecIter.collect]
  | cons x xs ih => simp [BitmaskVecIter.collect, ih]

/-- Popping a vector that ends in `a` returns `a` and the prefix. -/
theorem vecPop_concat {α : Type u} (l : List α) (a : α) :
    vecPop (l ++ [a]) = (some a, l) := by
  simp [vecPop, List.getLast?_concat, List.dropLast_concat]

/-- When `Iterator::find` comes back empty-handed, the iterator has been
run to the end. -/
theorem iterFind_none_nil (p : BitmaskItem T → Bool) (l : List (BitmaskItem T))
    (h : (iterFind p l).1 = none) : (iterFind p l).2 = [] := by
  induction l with
  | nil => simp [iterFind]
  | cons x xs ih =>
    by_cases hx : p x
    · simp [iterFind, hx] at h
    · simp [iterFind, hx] at h ⊢
      exact ih h

/-- Functional description of `Iterator::find` on a slice iterator: it
returns the first element satisfying the predicate, and leaves exactly
the elements strictly after that match. -/
theorem iterFind_spec (p : BitmaskItem T → Bool) (l : List (BitmaskItem T)) :
    (iterFind p l).1 = l.find? p ∧
    (iterFind p l).2 = (l.dropWhile (fun e => !p e)).tail := by
  induction l with
  | nil => simp [iterFind]
  | cons x xs ih =>
    by_cases hx : p x
    · simp [iterFind, hx, List.find?_cons, List.dropWhile_cons]
    · simpa [iterFind, hx, List.find?_cons, List.dropWhile_cons] using ih

/-- C1: for every element and candidate mask `m`, `matches_mask m` is true
iff `(element.bitmask & m) == m`; in particular the all-zero candidate
mask matches every element. -/
theorem matches_mask_iff_and_containment (e : BitmaskItem T) (m : Nat) :
    (e.matches_mask m = true ↔ e.bitmask &&& m = m) ∧ e.matches_mask 0 = true := by
  constructor
  · simp [BitmaskItem.matches_mask]
  · simp [BitmaskItem.matches_mask]

/-- C3: mask matching is monotonic — if `m1` is a bitwise subset of `m2`
(`m1 & m2 == m1`) and the element matches `m2`, it also matches `m1`. -/
theorem matches_mask_monotonic (e : BitmaskItem T) (m1 m2 : Nat)
    (hsub : m1 &&& m2 = m1) (h : e.matches_mask m2 = true) :
    e.matches_mask m1 = true := by
  have hb : e.bitmask &&& m2 = m2 := by
    simpa [BitmaskItem.matches_mask] using h
  have hres : e.bitmask &&& m1 = m1 := by
    calc e.bitmask &&& m1 = e.bitmask &&& (m1 &&& m2) := by rw [hsub]
    _ = e.bitmask &&& (m2 &&& m1) := by rw [Nat.land_comm m1 m2]
    _ = (e.bitmask &&& m2) &&& m1 := by rw [Nat.land_assoc]
    _ = m2 &&& m1 := by rw [hb]
    _ = m1 &&& m2 := by rw [Nat.land_comm]
    _ = m1 := hsub
  simpa [BitmaskItem.matches_mask] using hres

/-- Witness for C3 at a concrete element and masks. -/
theorem matches_mask_monotonic_witness :
    (1 : Nat) &&& 3 = 1 ∧
    (BitmaskItem.new 3 (0 : Nat)).matches_mask 3 = true ∧
    (BitmaskItem.new 3 (0 : Nat)).matches_mask 1 = true :=
  ⟨by decide, by decide,
    matches_mask_monotonic (BitmaskItem.new 3 (0 : Nat)) 1 3 (by decide) (by decide)⟩

/-- C4: pushing `(m, x)` and immediately popping with mask returns exactly
that pair and restores the vector to its pre-push state. -/
theorem push_with_mask_pop_roundtrip (v : BitmaskVec T) (m : Nat) (x : T) :
    (v.push_with_mask m x).pop_with_mask = (some (BitmaskItem.new m x), v) := by
  simp [BitmaskVec.push_with_mask, BitmaskVec.pop_with_mask, vecPop_concat]

/-- C8: `append` concatenates the two element sequences in order (masks
included), leaves `other` empty, and makes the lengths add up. -/
theorem append_moves_all_in_order (a b : BitmaskVec T) :
    (a.append b).1.inner = a.inner ++ b.inner ∧
    (a.append b).2.len = 0 ∧
    (a.append b).1.len = a.len + b.len := by
  refine ⟨rfl, rfl, ?_⟩
  simp [BitmaskVec.append, BitmaskVec.len]

/-- C9: the `+=` operator on two vectors behaves exactly as append-by-move:
its result is `append`'s updated `self` (prior elements of `self` followed
by all of `rhs`'s elements, masks preserved), and the moved-from side of
`append` is empty. -/
theorem add_assign_vec_is_append_by_move (a b : BitmaskVec T) :
    a.add_assign b = (a.append b).1 ∧
    (a.add_assign b).inner = a.inner ++ b.inner ∧
    (a.append b).2.inner = [] :=
  ⟨rfl, rfl, rfl⟩

/-- C2: `filter_mask` (on both the shared and the mutable payload+mask
cursor) advances the cursor past non-matching elements, returns the first
remaining element satisfying `matches_mask`, and leaves exactly the
elements strictly after the match, so skipped elements are never
revisited; on scenario A, repeated `filter_mask(0b00000010)` calls yield
payloads 101 then 102, then absent with the cursor exhausted. -/
theorem filter_mask_yields_next_match :
    (∀ (it : BitmaskVecIterWithMask T) (m : Nat),
        (it.filter_mask m).1 = it.inner.find? (fun e => e.matches_mask m) ∧
        (it.filter_mask m).2.inner =
          (it.inner.dropWhile (fun e => !e.matches_mask m)).tail) ∧
    (∀ (it : BitmaskVecIterWithMaskMut T) (m : Nat),
        (it.filter_mask m).1 = it.inner.find? (fun e => e.matches_mask m) ∧
        (it.filter_mask m).2.inner =
          (it.inner.dropWhile (fun e => !e.matches_mask m)).tail) ∧
    (scenarioA.iter_with_mask.filter_mask 0b00000010).1 =
      some (BitmaskItem.new 0b00000010 101) ∧
    ((scenarioA.iter_with_mask.filter_mask 0b00000010).2.filter_mask 0b00000010).1 =
      some (BitmaskItem.new 0b00000011 102) ∧
    ((scenarioA.iter_with_mask.filter_mask 0b00000010).2.filter_mask
        0b00000010).2.filter_mask 0b00000010 = (none, { inner := [] }) := by
  refine ⟨?_, ?_, by decide, by decide, by decide⟩
  · intro it m
    rcases hfind : iterFind (fun e => e.matches_mask m) it.inner with ⟨o, rest⟩
    have h := iterFind_spec (fun e => e.matches_mask m) it.inner
    rw [hfind] at h
    exact ⟨by simp [BitmaskVecIterWithMask.filter_mask, hfind, h.1],
           by simp [BitmaskVecIterWithMask.filter_mask, hfind, h.2]⟩
  · intro it m
    rcases hfind : iterFind (fun e => e.matches_mask m) it.inner with ⟨o, rest⟩
    have h := iterFind_spec (fun e => e.matches_mask m) it.inner
    rw [hfind] at h
    exact ⟨by simp [BitmaskVecIterWithMaskMut.filter_mask, hfind, h.1],
           by simp [BitmaskVecIterWithMaskMut.filter_mask, hfind, h.2]⟩

/-- C5: once any of the four cursor kinds yields an absent result (from
`next`, or from `filter_mask` on the two mask-aware kinds), every
subsequent call on the resulting cursor state yields absent again, with
the state unchanged. -/
theorem cursor_exhaustion_idempotent :
    (∀ it it' : BitmaskVecIter T, it.next = (none, it') → it'.next = (none, it')) ∧
    (∀ it it' : BitmaskVecIterMut T, it.next = (none, it') → it'.next = (none, it')) ∧
    (∀ it it' : BitmaskVecIterWithMask T,
        it.next = (none, it') → it'.next = (none, it')) ∧
    (∀ it it' : BitmaskVecIterWithMaskMut T,
        it.next = (none, it') → it'.next = (none, it')) ∧
    (∀ (it it' : BitmaskVecIterWithMask T) (m m' : Nat),
        it.filter_mask m = (none, it') → it'.filter_mask m' = (none, it')) ∧
    (∀ (it it' : BitmaskVecIterWithMaskMut T) (m m' : Nat),
        it.filter_mask m = (none, it') → it'.filter_mask m' = (none, it')) := by
  refine ⟨?_, ?_, ?_, ?_, ?_, ?_⟩
  · rintro ⟨_ | ⟨x, xs⟩⟩ it' h
    · simp [BitmaskVecIter.next] at h
      subst h
      rfl
    · simp [BitmaskVecIter.next] at h
  · rintro ⟨_ | ⟨x, xs⟩⟩ it' h
    · simp [BitmaskVecIterMut.next] at h
      subst h
      rfl
    · simp [BitmaskVecIterMut.next] at h
  · rintro ⟨_ | ⟨x, xs⟩⟩ it' h
    · simp [BitmaskVecIterWithMask.next] at h
      subst h
      rfl
    · simp [BitmaskVecIterWithMask.next] at h
  · rintro ⟨_ | ⟨x, xs⟩⟩ it' h
    · simp [BitmaskVecIterWithMaskMut.next] at h
      subst h
      rfl
    · simp [BitmaskVecIterWithMaskMut.next] at h
  · intro it it' m m' h
    rcases hfind : iterFind (fun e => e.matches_mask m) it.inner with ⟨o, rest⟩
    have hdef : it.filter_mask m = (o, { inner := rest }) := by
      simp [BitmaskVecIterWithMask.filter_mask, hfind]
    rw [hdef] at h
    have ho : o = none := congrArg Prod.fst h
    have hrest : rest = [] := by
      have := iterFind_none_nil (fun e => e.matches_mask m) it.inner (by rw [hfind]; exact ho)
      rw [hfind] at this
      exact this
    have hit : it' = { inner := [] } := by
      have := congrArg Prod.snd h
      simp at this
      rw [← this, hrest]
    rw [hit]
    simp [BitmaskVecIterWithMask.filter_mask, iterFind]
  · intro it it' m m' h
    rcases hfind : iterFind (fun e => e.matches_mask m) it.inner with ⟨o, rest⟩
    have hdef : it.filter_mask m = (o, { inner := rest }) := by
      simp [BitmaskVecIterWithMaskMut.filter_mask, hfind]
    rw [hdef] at h
    have ho : o = none := congrArg Prod.fst h
    have hrest : rest = [] := by
      have := iterFind_none_nil (fun e => e.matches_mask m) it.inner (by rw [hfind]; exact ho)
      rw [hfind] at this
      exact this
    have hit : it' = { inner := [] } := by
      have := congrArg Prod.snd h
      simp at this
      rw [← this, hrest]
    rw [hit]
    simp [BitmaskVecIterWithMaskMut.filter_mask, iterFind]

/-- Witness for C5 at concrete exhausted cursors. -/
theorem cursor_exhaustion_idempotent_witness :
    ({ inner := [] } : BitmaskVecIter Nat).next = (none, { inner := [] }) ∧
    ({ inner := [] } : BitmaskVecIterWithMask Nat).filter_mask 2 =
      (none, { inner := [] }) := by
  have h := cursor_exhaustion_idempotent (T := Nat)
  exact ⟨h.1 { inner := [] } { inner := [] } rfl,
         h.2.2.2.2.1 { inner := [] } { inner := [] } 2 2 rfl⟩

/-- C6: `push` and `push_with_mask` grow the length by exactly 1 and put
the new element at index `len() - 1`, reachable both through `as_slice`
(mask visible: zero for `push`, the caller's mask for `push_with_mask`)
and through the index operator (payload). -/
theorem push_appends_one_element (v : BitmaskVec T) (m : Nat) (x : T) :
    (v.push x).len = v.len + 1 ∧
    (v.push_with_mask m x).len = v.len + 1 ∧
    (v.push x).as_slice.get? ((v.push x).len - 1) = some (BitmaskItem.new 0 x) ∧
    (v.push_with_mask m x).as_slice.get? ((v.push_with_mask m x).len - 1) =
      some (BitmaskItem.new m x) ∧
    (v.push x).index ((v.push x).len - 1)
      (by simp [BitmaskVec.push, BitmaskVec.len]) = x ∧
    (v.push_with_mask m x).index ((v.push_with_mask m x).len - 1)
      (by simp [BitmaskVec.push_with_mask, BitmaskVec.len]) = x := by
  have hp : (v.push x).as_slice.get? ((v.push x).len - 1) =
      some (BitmaskItem.new 0 x) := by
    have h1 : (v.push x).len - 1 = v.inner.length := by
      simp [BitmaskVec.push, BitmaskVec.len]
    rw [h1]
    exact List.get?_concat_length v.inner (BitmaskItem.new 0 x)
  have hpm : (v.push_with_mask m x).as_slice.get? ((v.push_with_mask m x).len - 1) =
      some (BitmaskItem.new m x) := by
    have h1 : (v.push_with_mask m x).len - 1 = v.inner.length := by
      simp [BitmaskVec.push_with_mask, BitmaskVec.len]
    rw [h1]
    exact List.get?_concat_length v.inner (BitmaskItem.new m x)
  refine ⟨?_, ?_, hp, hpm, ?_, ?_⟩
  · simp [BitmaskVec.push, BitmaskVec.len]
  · simp [BitmaskVec.push_with_mask, BitmaskVec.len]
  · obtain ⟨hh, hget⟩ := List.get?_eq_some.mp hp
    exact congrArg BitmaskItem.item hget
  · obtain ⟨hh, hget⟩ := List.get?_eq_some.mp hpm
    exact congrArg BitmaskItem.item hget

/-- C7: `pop` and `pop_with_mask` return an absent value exactly on the
empty sequence (leaving it unchanged); on a non-empty sequence they
remove the last element, return it (payload only for `pop`, mask and
payload for `pop_with_mask`), and decrease the length by one. -/
theorem pop_returns_last_or_none (v : BitmaskVec T) :
    ((v.pop).1 = none ↔ v.len = 0) ∧
    ((v.pop_with_mask).1 = none ↔ v.len = 0) ∧
    (v.len = 0 → v.pop = (none, v) ∧ v.pop_with_mask = (none, v)) ∧
    (0 < v.len → ∃ l e, v.inner = l ++ [e] ∧
        v.pop = (some e.item, { inner := l }) ∧
        v.pop_with_mask = (some e, { inner := l }) ∧
        (v.pop).2.len = v.len - 1 ∧
        (v.pop_with_mask).2.len = v.len - 1) := by
  rcases v with ⟨l⟩
  rcases List.eq_nil_or_concat' l with rfl | ⟨l', e, rfl⟩
  · refine ⟨?_, ?_, fun _ => ⟨?_, ?_⟩, ?_⟩
    · simp [BitmaskVec.pop, vecPop, BitmaskVec.len]
    · simp [BitmaskVec.pop_with_mask, vecPop, BitmaskVec.len]
    · simp [BitmaskVec.pop, vecPop]
    · simp [BitmaskVec.pop_with_mask, vecPop]
    · intro h
      simp [BitmaskVec.len] at h
  · have hpop : BitmaskVec.pop { inner := l' ++ [e] } =
        (some e.item, { inner := l' }) := by
      simp [BitmaskVec.pop, vecPop_concat]
    have hpopm : BitmaskVec.pop_with_mask { inner := l' ++ [e] } =
        (some e, { inner := l' }) := by
      simp [BitmaskVec.pop_with_mask, vecPop_concat]
    have hlen : ({ inner := l' ++ [e] } : BitmaskVec T).len = l'.length + 1 := by
      simp [BitmaskVec.len]
    refine ⟨?_, ?_, ?_, ?_⟩
    · simp [hpop, hlen]
    · simp [hpopm, hlen]
    · intro h
      rw [hlen] at h
      exact absurd h (Nat.succ_ne_zero _)
    · intro _
      exact ⟨l', e, rfl, hpop, hpopm,
        by simp [hpop, hlen, BitmaskVec.len],
        by simp [hpopm, hlen, BitmaskVec.len]⟩

/-- Witness for C7 on the empty sequence. -/
theorem pop_returns_last_or_none_witness :
    (BitmaskVec.new : BitmaskVec Nat).len = 0 ∧
    (BitmaskVec.new : BitmaskVec Nat).pop = (none, BitmaskVec.new) ∧
    (BitmaskVec.new : BitmaskVec Nat).pop_with_mask = (none, BitmaskVec.new) := by
  have h := (pop_returns_last_or_none (BitmaskVec.new : BitmaskVec Nat)).2.2.1 (by decide)
  exact ⟨by decide, h.1, h.2⟩

/-- C10: the payload-only views are projections of the single backing
store — the index operator returns the `item` field of the element at the
same position of `as_slice`, and draining the payload cursor from
`iter()` yields exactly the `item` fields of `as_slice` in order. -/
theorem payload_views_project_store (v : BitmaskVec T) (i : Nat) (h : i < v.len) :
    v.index i h = ((v.as_slice).get ⟨i, h⟩).item ∧
    (v.iter).collect = (v.as_slice).map (fun e => e.item) := by
  refine ⟨rfl, ?_⟩
  rcases v with ⟨l⟩
  simpa [BitmaskVec.iter, BitmaskVec.as_slice] using BitmaskVecIter.collect_eq_map l

/-- Witness for C10 at a concrete one-element vector and index 0. -/
theorem payload_views_project_store_witness :
    0 < (BitmaskVec.new.push_with_mask 1 (7 : Nat)).len ∧
    (BitmaskVec.new.push_with_mask 1 (7 : Nat)).index 0 (by decide) = 7 := by
  refine ⟨by decide, ?_⟩
  rw [(payload_views_project_store (BitmaskVec.new.push_with_mask 1 (7 : Nat)) 0
    (by decide)).1]
  decide
